import Mathlib

/-!
Shallow embedding of the dock item store of `src/dockProvider.ts`
(a VS Code status-bar dock extension), together with proofs about its
mutation operations, its rendering projection and its bookmark import.

External collaborators (VS Code prompt/picker APIs, the node `path`
library, `Date.now()` and `Math.random()`) are modelled as explicit
parameters: a prompt that may be cancelled becomes an `Option`
argument (`none` = cancelled/undefined), the clock becomes a
`ts : Nat` argument, and the randomness of import ids becomes an
`ids : Nat → String` stream (the id given to the k-th pushed item).
JavaScript string truthiness (`undefined` and `""` are falsy) is
modelled by `strTruthy`.
-/

namespace Dock

/-- The `type` tag of the `DockItem` interface in `dockProvider.ts`. -/
inductive ItemType where
  | app
  | file
  | folder
  | link
  | folderGroup
deriving DecidableEq

/-- The flat fields of the `DockItem` interface, except `children`. -/
structure BaseItem where
  id : String
  type : ItemType
  name : String
  title : Option String := none
  path : Option String := none
  url : Option String := none
  icon : Option String := none
  color : Option String := none
  command : Option String := none
deriving DecidableEq

/-- The `DockItem` interface: the flat fields plus the optional
`children` array (populated only on folder-groups by the code). -/
inductive DockItem where
  | mk (base : BaseItem) (children : Option (List DockItem))

def DockItem.base : DockItem → BaseItem
  | DockItem.mk b _ => b

def DockItem.children : DockItem → Option (List DockItem)
  | DockItem.mk _ c => c

def DockItem.id (d : DockItem) : String := d.base.id

def DockItem.type (d : DockItem) : ItemType := d.base.type

def DockItem.name (d : DockItem) : String := d.base.name

def DockItem.title (d : DockItem) : Option String := d.base.title

def DockItem.path (d : DockItem) : Option String := d.base.path

def DockItem.url (d : DockItem) : Option String := d.base.url

def DockItem.icon (d : DockItem) : Option String := d.base.icon

def DockItem.color (d : DockItem) : Option String := d.base.color

def DockItem.command (d : DockItem) : Option String := d.base.command

/-- JavaScript truthiness of an optional string: `undefined` and the
empty string are falsy. -/
def strTruthy (a : Option String) : Bool :=
  match a with
  | some s => s != ""
  | none => false

/-- JavaScript `a || b` for an optional string `a` and string `b`. -/
def jsOr (a : Option String) (b : String) : String :=
  match a with
  | some s => if s = "" then b else s
  | none => b

/-- Id generation `"<variant>-<Date.now()>"` used by every add
operation (the clock value is an explicit parameter). -/
def genId (variant : String) (ts : Nat) : String :=
  variant ++ "-" ++ toString ts

/-- `getDefaultItems` of `dockProvider.ts`: the fixed 4-entry default
set seeded on first run and restored by reset. -/
def getDefaultItems : List DockItem :=
  [ DockItem.mk
      { id := "terminal", type := ItemType.app, name := "Terminal",
        icon := some ("$(terminal)"),
        command := some ("workbench.action.terminal.new") } none,
    DockItem.mk
      { id := "explorer", type := ItemType.app, name := "Explorer",
        icon := some ("$(files)"),
        command := some ("workbench.view.explorer") } none,
    DockItem.mk
      { id := "git", type := ItemType.app, name := "Git",
        icon := some ("$(git-branch)"),
        command := some ("workbench.view.scm") } none,
    DockItem.mk
      { id := "extensions", type := ItemType.app, name := "Extensions",
        icon := some ("$(extensions)"),
        command := some ("workbench.view.extensions") } none ]

/-- `clearAllItems` of `dockProvider.ts` (the "Reset to Defaults"
action): once the warning dialog is confirmed the whole top-level list
is replaced by the default set; otherwise nothing happens. -/
def clearAllItems (confirmed : Bool) (items : List DockItem) : List DockItem :=
  if confirmed then getDefaultItems else items

/-- `getColorIcon` of `dockProvider.ts`: `colorMap[color] || '⚪'`. -/
def getColorIcon (color : String) : String :=
  if color = "#007ACC" then ("🔵")
  else if color = "#28A745" then ("🟢")
  else if color = "#DC3545" then ("🟥")
  else if color = "#FD7E14" then ("🟠")
  else if color = "#6F42C1" then ("🟣")
  else if color = "#E83E8C" then ("🟪")
  else if color = "#FFC107" then ("🟡")
  else if color = "#20C997" then ("💎")
  else ("⚪")

/-- `getColorName` of `dockProvider.ts`: `colorNames[color] || 'Custom'`. -/
def getColorName (color : String) : String :=
  if color = "#007ACC" then ("Blue")
  else if color = "#28A745" then ("Green")
  else if color = "#DC3545" then ("Red")
  else if color = "#FD7E14" then ("Orange")
  else if color = "#6F42C1" then ("Purple")
  else if color = "#E83E8C" then ("Pink")
  else if color = "#FFC107" then ("Yellow")
  else if color = "#20C997" then ("Teal")
  else ("Custom")

/-- The 8 color codes that `getColorIcon` / `getColorName` know. -/
def knownColors : List String :=
  ["#007ACC", "#28A745", "#DC3545", "#FD7E14",
   "#6F42C1", "#E83E8C", "#FFC107", "#20C997"]

/-- `getFileIcon` of `dockProvider.ts`; `extname` stands for the node
`path.extname` collaborator. -/
def getFileIcon (extname : String → String) (fileName : String) : String :=
  let e := (extname fileName).toLower
  if e = ".js" then ("$(symbol-method)")
  else if e = ".ts" then ("$(symbol-method)")
  else if e = ".html" then ("$(globe)")
  else if e = ".css" then ("$(symbol-color)")
  else if e = ".json" then ("$(symbol-object)")
  else if e = ".md" then ("$(book)")
  else if e = ".txt" then ("$(file-text)")
  else if e = ".pdf" then ("$(file-pdf)")
  else if e = ".png" then ("$(file-media)")
  else if e = ".jpg" then ("$(file-media)")
  else if e = ".gif" then ("$(file-media)")
  else if e = ".svg" then ("$(file-media)")
  else ("$(file)")

/-- `editItem` of `dockProvider.ts`. The six option arguments are the
results of the six possible prompts (`none` = cancelled / undefined).
Cancelling the name or title prompt aborts the whole edit; afterwards
each variant-specific prompt result is assigned whenever it is
defined (`!== undefined`), and for the folder-group color the selected
value goes through `color.value || undefined`. -/
def editItem (item : DockItem)
    (newName newTitle newCommand newIcon colorPick newUrl : Option String) :
    DockItem :=
  match newName with
  | none => item
  | some nm =>
    match newTitle with
    | none => item
    | some tl =>
      let b0 := { item.base with name := nm, title := some tl }
      let b1 :=
        if b0.type = ItemType.app then
          let ba :=
            match newCommand with
            | some c => { b0 with command := some c }
            | none => b0
          match newIcon with
          | some ic => { ba with icon := some ic }
          | none => ba
        else b0
      let b2 :=
        if b1.type = ItemType.folderGroup then
          match colorPick with
          | some v => { b1 with color := if v = "" then none else some v }
          | none => b1
        else b1
      let b3 :=
        if b2.type = ItemType.link then
          match newUrl with
          | some u => { b2 with url := some u }
          | none => b2
        else b2
      DockItem.mk b3 item.children

/-- `addItemToFolder` of `dockProvider.ts`, after the creation dialogs
have produced `newItem` (`none` = creation cancelled): if an item was
created, the target's `children` array is initialized when absent and
the item is pushed onto it.  The source performs no check that the
target is a folder-group. -/
def addItemToFolder (folderItem : DockItem) (newItem : Option DockItem) :
    DockItem :=
  match newItem with
  | none => folderItem
  | some it =>
    let cs := match folderItem.children with
      | none => []
      | some cs => cs
    DockItem.mk folderItem.base (some (cs ++ [it]))

/-- `addAppItem` of `dockProvider.ts`: aborts when the name prompt is
cancelled or empty; command and icon prompt results are stored as
given (possibly undefined). -/
def addAppItem (items : List DockItem) (ts : Nat)
    (name title command icon : Option String) : List DockItem :=
  match name with
  | none => items
  | some nm =>
    if nm = "" then items
    else
      items ++
        [ DockItem.mk
            { id := genId ("app") ts, type := ItemType.app, name := nm,
              title := some (jsOr title nm),
              command := command, icon := icon } none ]

/-- `addFileItem` of `dockProvider.ts`; `bn` and `extname` stand for
the node `path.basename` / `path.extname` collaborators, and
`fileUri` is the file picker's result (`none` = cancelled). -/
def addFileItem (bn extname : String → String) (items : List DockItem)
    (ts : Nat) (fileUri : Option String) (title : Option String) :
    List DockItem :=
  match fileUri with
  | none => items
  | some filePath =>
    let fileName := bn filePath
    items ++
      [ DockItem.mk
          { id := genId ("file") ts, type := ItemType.file,
            name := fileName, title := some (jsOr title fileName),
            path := some filePath,
            icon := some (getFileIcon extname fileName) } none ]

/-- `addFolderItem` of `dockProvider.ts`; `bn` stands for
`path.basename` and `folderUri` is the folder picker's result. -/
def addFolderItem (bn : String → String) (items : List DockItem)
    (ts : Nat) (folderUri : Option String) (title : Option String) :
    List DockItem :=
  match folderUri with
  | none => items
  | some folderPath =>
    let folderName := bn folderPath
    items ++
      [ DockItem.mk
          { id := genId ("folder") ts, type := ItemType.folder,
            name := folderName, title := some (jsOr title folderName),
            path := some folderPath,
            icon := some ("$(folder)") } none ]

/-- `addLinkItem` of `dockProvider.ts`: aborts when the url or name
prompt is cancelled or empty. -/
def addLinkItem (items : List DockItem) (ts : Nat)
    (url name title : Option String) : List DockItem :=
  match url with
  | none => items
  | some u =>
    if u = "" then items
    else
      match name with
      | none => items
      | some nm =>
        if nm = "" then items
        else
          items ++
            [ DockItem.mk
                { id := genId ("link") ts, type := ItemType.link,
                  name := nm, title := some (jsOr title nm),
                  url := some u, icon := some ("$(globe)") } none ]

/-- `showAddFolderDialog` of `dockProvider.ts` (folder-group add):
aborts when the name prompt is cancelled or empty; the color
QuickPick result goes through `color?.value || undefined`; children
start as the (defined) empty array. -/
def showAddFolderDialog (items : List DockItem) (ts : Nat)
    (name title colorPick : Option String) : List DockItem :=
  match name with
  | none => items
  | some nm =>
    if nm = "" then items
    else
      items ++
        [ DockItem.mk
            { id := genId ("folder-group") ts, type := ItemType.folderGroup,
              name := nm, title := some (jsOr title nm),
              icon := some ("$(folder-opened)"),
              color := match colorPick with
                | some v => if v = "" then none else some v
                | none => none } (some []) ]

/-- Outcome marker for the reorder operations: `moved` = swap done,
`outOfBounds` = the "Cannot move item in that direction" notice was
shown, `notFound` = silent early return. -/
inductive MoveOutcome where
  | moved
  | outOfBounds
  | notFound
deriving DecidableEq

/-- `findIndex(i => i.id === item.id)` on a dock item list, as an
`Option Nat` (`none` for JavaScript's `-1`). -/
def findIdxById : List DockItem → String → Option Nat
  | [], _ => none
  | x :: xs, s =>
    if x.id = s then some 0
    else (findIdxById xs s).map (fun n => n + 1)

/-- The destructuring swap `[a[i], a[j]] = [a[j], a[i]]` on a list
(identity when either index is out of range). -/
def listSwap {α : Type} (l : List α) (i j : Nat) : List α :=
  match l[i]?, l[j]? with
  | some a, some b => (l.set i b).set j a
  | _, _ => l

/-- `moveItem` of `dockProvider.ts`: find the item by id, compute the
adjacent index, report out-of-bounds moves without changing the list,
otherwise swap. -/
def moveItem (items : List DockItem) (item : DockItem) (direction : Int) :
    List DockItem × MoveOutcome :=
  match findIdxById items item.id with
  | none => (items, MoveOutcome.notFound)
  | some index =>
    let newIndex : Int := (index : Int) + direction
    if newIndex < 0 ∨ (items.length : Int) ≤ newIndex then
      (items, MoveOutcome.outOfBounds)
    else
      (listSwap items index newIndex.toNat, MoveOutcome.moved)

/-- `moveItemInFolder` of `dockProvider.ts`: the same swap performed
inside the folder's `children` array. -/
def moveItemInFolder (folder : DockItem) (item : DockItem)
    (direction : Int) : DockItem × MoveOutcome :=
  match folder.children with
  | none => (folder, MoveOutcome.notFound)
  | some cs =>
    match findIdxById cs item.id with
    | none => (folder, MoveOutcome.notFound)
    | some index =>
      let newIndex : Int := (index : Int) + direction
      if newIndex < 0 ∨ (cs.length : Int) ≤ newIndex then
        (folder, MoveOutcome.outOfBounds)
      else
        (DockItem.mk folder.base (some (listSwap cs index newIndex.toNat)),
          MoveOutcome.moved)

/-- A node of the Chrome bookmark tree: `{type: "url", name, url}`,
`{type: "folder", name, children}` (a missing `children` array behaves
like an empty one), or any other node type (ignored). -/
inductive BookmarkNode where
  | url (name u : String)
  | folder (name : String) (children : List BookmarkNode)
  | other

/-- One entry of `bookmarksData.roots`: a root object whose optional
`children` array is traversed when present. -/
structure BookmarkRoot where
  children : Option (List BookmarkNode)

mutual

/-- `parseBookmarkNode` of `dockProvider.ts`, acting on the growing
`items` array `acc`: a `url` node pushes one link item whose id is
drawn from the stream `ids` at the current array length (modelling
`chrome-<Date.now()>-<Math.random()>`); a `folder` node recurses over
its children; other node types are ignored. -/
def parseBookmarkNode (ids : Nat → String) :
    BookmarkNode → List DockItem → List DockItem
  | BookmarkNode.url nm u, acc =>
    acc ++
      [ DockItem.mk
          { id := ids acc.length, type := ItemType.link, name := nm,
            url := some u, icon := some ("$(globe)") } none ]
  | BookmarkNode.folder _ cs, acc => parseBookmarkList ids cs acc
  | BookmarkNode.other, acc => acc

/-- The `forEach` over a children array inside `parseBookmarkNode`. -/
def parseBookmarkList (ids : Nat → String) :
    List BookmarkNode → List DockItem → List DockItem
  | [], acc => acc
  | c :: cs, acc => parseBookmarkList ids cs (parseBookmarkNode ids c acc)

end

/-- The body of the `Object.values(bookmarksData.roots).forEach` loop
of `parseChromeBookmarks`. -/
def parseRoot (ids : Nat → String) (r : BookmarkRoot)
    (acc : List DockItem) : List DockItem :=
  match r.children with
  | some cs => parseBookmarkList ids cs acc
  | none => acc

/-- `parseChromeBookmarks` of `dockProvider.ts`: traverse every root's
children, collecting flat link items. -/
def parseChromeBookmarks (ids : Nat → String) (roots : List BookmarkRoot) :
    List DockItem :=
  roots.foldl (fun acc r => parseRoot ids r acc) []

/-- `importChromeBookmarks` of `dockProvider.ts`, after the bookmark
file has been read and parsed into `roots`: when at least one item was
parsed it is appended to the top-level list, and the reported imported
count is returned alongside the new list (0 with the list untouched
otherwise). -/
def importChromeBookmarks (ids : Nat → String) (items : List DockItem)
    (roots : List BookmarkRoot) : List DockItem × Nat :=
  let importedItems := parseChromeBookmarks ids roots
  if importedItems.length > 0 then
    (items ++ importedItems, importedItems.length)
  else
    (items, 0)

mutual

/-- Modelled from the spec: the `(name, url)` pairs of the `url`-typed
leaf nodes of one bookmark node, flattened in depth-first pre-order
(used to compare the import output against the spec's description). -/
def urlLeavesNode : BookmarkNode → List (String × String)
  | BookmarkNode.url nm u => [(nm, u)]
  | BookmarkNode.folder _ cs => urlLeavesList cs
  | BookmarkNode.other => []

/-- Modelled from the spec: pre-order url leaves of a node list. -/
def urlLeavesList : List BookmarkNode → List (String × String)
  | [] => []
  | c :: cs => urlLeavesNode c ++ urlLeavesList cs

end

/-- Modelled from the spec: pre-order url leaves of one root. -/
def urlLeavesRoot (r : BookmarkRoot) : List (String × String) :=
  match r.children with
  | some cs => urlLeavesList cs
  | none => []

/-- Modelled from the spec: pre-order url leaves of the whole tree. -/
def urlLeavesData (roots : List BookmarkRoot) : List (String × String) :=
  roots.foldl (fun acc r => acc ++ urlLeavesRoot r) []

/-- The id-independent content of an imported item: name, url, type. -/
def linkProj (d : DockItem) : String × Option String × ItemType :=
  (d.name, d.url, d.type)

/-- The click action attached to a rendered status bar entry. -/
inductive EntryCommand where
  | folderMenu (item : DockItem)
  | invoke (command : String)
  | openFile (path : String)
  | openFolder (path : String)
  | openUrl (url : String)

/-- One rendered status bar entry: display text, tooltip, and the
optional click action. -/
structure StatusEntry where
  text : String
  tooltip : String
  command : Option EntryCommand

/-- The display-text computation of `createDockItems`: when icons are
enabled and the item has a (truthy) icon, an optional color glyph
prefix, the icon, and the name when titles are enabled and the name is
truthy and at most 20 characters; otherwise the bare name. -/
def displayTextOf (showIcons showTitles : Bool) (item : DockItem) : String :=
  if showIcons && strTruthy item.icon then
    let pre :=
      if strTruthy item.color then
        getColorIcon (jsOr item.color ("")) ++ " "
      else ("")
    let base := pre ++ jsOr item.icon ("")
    if showTitles && strTruthy (some item.name) && (item.name.length ≤ 20 : Bool) then
      base ++ " " ++ item.name
    else base
  else item.name

/-- The tooltip computation of `createDockItems`: title-or-name, plus
a parenthesized color name when a color is set. -/
def tooltipOf (item : DockItem) : String :=
  let t := jsOr item.title item.name
  if strTruthy item.color then
    t ++ " (" ++ getColorName (jsOr item.color ("")) ++ ")"
  else t

/-- `getCommandForItem` of `dockProvider.ts`: the type→action mapping;
`none` when the required field for the mapping is absent or empty. -/
def getCommandForItem (item : DockItem) : Option EntryCommand :=
  match item.type with
  | ItemType.app =>
    if strTruthy item.command then some (EntryCommand.invoke (jsOr item.command (""))) else none
  | ItemType.file =>
    if strTruthy item.path then some (EntryCommand.openFile (jsOr item.path (""))) else none
  | ItemType.folder =>
    if strTruthy item.path then some (EntryCommand.openFolder (jsOr item.path (""))) else none
  | ItemType.link =>
    if strTruthy item.url then some (EntryCommand.openUrl (jsOr item.url (""))) else none
  | ItemType.folderGroup => none

/-- The click-action choice of `createDockItems`: a folder-group with
a defined children array opens the folder menu, everything else uses
`getCommandForItem`. -/
def commandOf (item : DockItem) : Option EntryCommand :=
  if item.type = ItemType.folderGroup ∧ item.children.isSome then
    some (EntryCommand.folderMenu item)
  else getCommandForItem item

/-- The per-item rendering of `createDockItems`. -/
def renderItem (showIcons showTitles : Bool) (item : DockItem) : StatusEntry :=
  { text := displayTextOf showIcons showTitles item,
    tooltip := tooltipOf item,
    command := commandOf item }

/-- The trailing "+" entry appended by `createDockItems`. -/
def addButtonEntry : StatusEntry :=
  { text := "$(plus)", tooltip := "Add item to dock",
    command := some (EntryCommand.invoke ("vscode-dock.addItem")) }

/-- `createDockItems` of `dockProvider.ts`: render the first
`maxItems` items in order (the `slice(0, maxItems).forEach` push
loop), then append the add-button entry. -/
def createDockItems (items : List DockItem) (maxItems : Nat)
    (showIcons showTitles : Bool) : List StatusEntry :=
  ((items.take maxItems).foldl
      (fun acc it => acc ++ [renderItem showIcons showTitles it]) [])
    ++ [addButtonEntry]

/-- `id` is unique nowhere at scope `items`: no existing item carries
the string `s` as its id. -/
def freshAt (items : List DockItem) (s : String) : Prop :=
  ∀ x ∈ items, DockItem.id x ≠ s

/-- The id `s` occurs exactly once among the ids of `items`. -/
def uniqueAt (items : List DockItem) (s : String) : Prop :=
  (items.map DockItem.id).count s = 1

instance freshAtDecidable (items : List DockItem) (s : String) :
    Decidable (freshAt items s) :=
  inferInstanceAs (Decidable (∀ x ∈ items, DockItem.id x ≠ s))

instance uniqueAtDecidable (items : List DockItem) (s : String) :
    Decidable (uniqueAt items s) :=
  inferInstanceAs (Decidable ((items.map DockItem.id).count s = 1))

/-- Sample app item with a non-empty command, for the C1 analysis. -/
def sampleApp : DockItem :=
  DockItem.mk
    { id := "a1", type := ItemType.app, name := "Term",
      command := some ("workbench.action.terminal.new"),
      icon := some ("$(terminal)") } none

/-- Sample file item (not a folder-group), for the C2 analysis. -/
def sampleFile : DockItem :=
  DockItem.mk
    { id := "f1", type := ItemType.file, name := "notes",
      path := some ("/tmp/notes.txt") } none

/-- Sample link item, for the C2 analysis. -/
def sampleLink : DockItem :=
  DockItem.mk
    { id := "l1", type := ItemType.link, name := "Docs",
      url := some ("https://x.test"), icon := some ("$(globe)") } none

/-- Sample two-element list with distinct ids, for move witnesses. -/
def samplePair : List DockItem :=
  [ DockItem.mk { id := "a", type := ItemType.app, name := "A" } none,
    DockItem.mk { id := "b", type := ItemType.app, name := "B" } none ]

/-- Sample folder-group with one child, for the folder-move witness. -/
def sampleGroup : DockItem :=
  DockItem.mk
    { id := "g1", type := ItemType.folderGroup, name := "Work" }
    (some
      [ DockItem.mk
          { id := "c1", type := ItemType.link, name := "C",
            url := some ("https://c.test") } none ])

/-- Sample five-element list, for the maxItems=2 projection witness. -/
def sampleFive : List DockItem :=
  [ DockItem.mk { id := "i1", type := ItemType.app, name := "I1" } none,
    DockItem.mk { id := "i2", type := ItemType.app, name := "I2" } none,
    DockItem.mk { id := "i3", type := ItemType.app, name := "I3" } none,
    DockItem.mk { id := "i4", type := ItemType.app, name := "I4" } none,
    DockItem.mk { id := "i5", type := ItemType.app, name := "I5" } none ]

/-- Sample bookmark tree with folders and an unknown node type but no
`url` nodes at any depth, for the import witness. -/
def sampleNoUrlRoots : List BookmarkRoot :=
  [ { children := some
        [ BookmarkNode.folder ("empty") [],
          BookmarkNode.folder ("nested") [BookmarkNode.folder ("deep") [], BookmarkNode.other],
          BookmarkNode.other ] },
    { children := none } ]

/-- Sample id stream standing in for `chrome-<ts>-<rand>`. -/
def sampleIds (n : Nat) : String := "chrome-" ++ toString n

/-- Sample list whose single item already carries the id an app added
at clock tick 5 would generate, for the C3 analysis. -/
def sampleClash : List DockItem :=
  [ DockItem.mk { id := "app-5", type := ItemType.app, name := "Old" } none ]

/-- Sample bookmark tree holding url nodes at two depths, for the
bookmark witnesses. -/
def sampleUrlRoots : List BookmarkRoot :=
  [ { children := some
        [ BookmarkNode.url ("A") ("https://a.test"),
          BookmarkNode.folder ("F") [BookmarkNode.url ("B") ("https://b.test")],
          BookmarkNode.url ("C") ("https://c.test") ] } ]

/-! ## Generic list helpers -/

theorem foldl_push_eq_append {α β : Type} (f : α → β) (xs : List α)
    (acc : List β) :
    xs.foldl (fun a x => a ++ [f x]) acc = acc ++ xs.map f := by
  induction xs generalizing acc with
  | nil => simp
  | cons x xs ih => simp [ih]

theorem foldl_append_eq_join {α β : Type} (f : α → List β) (xs : List α)
    (init : List β) :
    xs.foldl (fun a x => a ++ f x) init = init ++ (xs.map f).flatten := by
  induction xs generalizing init with
  | nil => simp
  | cons x xs ih => simp [ih]

theorem set_eq_of_getElem? {α : Type} (l : List α) (i : Nat) (x : α)
    (h : l[i]? = some x) : l.set i x = l := by
  induction l generalizing i with
  | nil => simp at h
  | cons a t ih =>
    cases i with
    | zero => simp_all
    | succ k =>
      simp only [List.getElem?_cons_succ] at h
      simp [List.set, ih k h]

/-! ## Theorems for claim C7 (reset to defaults) -/

/-- Claim C7: for every prior state of the top-level item list,
`resetToDefaults` (modelled by `clearAllItems` with the warning dialog
confirmed) replaces the entire list with exactly the fixed 4-entry
default set terminal/explorer/git/extensions in this order, preserving
no prior folder-groups or custom items; without confirmation nothing
changes. -/
theorem resetToDefaults_fixed_set (prior : List DockItem) :
    clearAllItems true prior = getDefaultItems
      ∧ (clearAllItems true prior).map DockItem.id
          = ["terminal", "explorer", "git", "extensions"]
      ∧ (clearAllItems true prior).length = 4
      ∧ clearAllItems false prior = prior := by
  refine ⟨rfl, rfl, rfl, rfl⟩

/-! ## Theorems for claim C9 (color lookup totality) -/

/-- Claim C9: the color lookups are total over arbitrary strings: for
every color value that is not one of the 8 known color codes,
`getColorIcon` falls back to the white-circle glyph and `getColorName`
falls back to `"Custom"`. -/
theorem colorLookup_fallback_total (c : String) (h : c ∉ knownColors) :
    getColorIcon c = "⚪" ∧ getColorName c = "Custom" := by
  simp only [knownColors, List.mem_cons, List.not_mem_nil, or_false,
    not_or] at h
  obtain ⟨h1, h2, h3, h4, h5, h6, h7, h8⟩ := h
  constructor
  · simp [getColorIcon, h1, h2, h3, h4, h5, h6, h7, h8]
  · simp [getColorName, h1, h2, h3, h4, h5, h6, h7, h8]

/-- Witness for C9 at the concrete unknown color `"#123456"`. -/
theorem colorLookup_fallback_witness :
    getColorIcon ("#123456") = "⚪" ∧ getColorName ("#123456") = "Custom" :=
  colorLookup_fallback_total ("#123456") (by decide)

/-! ## Theorems for claim C1 (editItem and explicitly empty values) -/

/-- Counterexample to claim C1: for the concrete app item `sampleApp`
whose command is non-empty, supplying the explicitly empty (but
defined) string for the command prompt is not a no-op — `editItem`
overwrites the command with the empty string. -/
theorem editItem_empty_overwrites_cex :
    (editItem sampleApp (some ("Term")) (some ("t")) (some ("")) none none
        none).command ≠ sampleApp.command
      ∧ (editItem sampleApp (some ("Term")) (some ("t")) (some ("")) none
          none none).command = some ("")
      ∧ sampleApp.command = some ("workbench.action.terminal.new") := by
  refine ⟨by decide, rfl, rfl⟩

/-- Claim C1 as amended: `editItem` updates a variant-specific field
whenever the prompt result is defined, an explicitly empty value
included: an empty command/icon/url overwrites the field with the
empty string and an empty color selection clears the color; the field
is left unchanged exactly when the corresponding prompt is cancelled
(undefined), and cancelling the name or title prompt aborts the whole
edit. -/
theorem editItem_update_rule (item : DockItem) (nm tl : String)
    (newCommand newIcon colorPick newUrl : Option String) :
    (editItem item (some nm) (some tl) newCommand newIcon colorPick
        newUrl).name = nm
      ∧ (editItem item (some nm) (some tl) newCommand newIcon colorPick
          newUrl).title = some tl
      ∧ (editItem item (some nm) (some tl) newCommand newIcon colorPick
          newUrl).children = item.children
      ∧ (editItem item (some nm) (some tl) newCommand newIcon colorPick
          newUrl).command
        = (if item.type = ItemType.app then
            match newCommand with
            | some c => some c
            | none => item.command
          else item.command)
      ∧ (editItem item (some nm) (some tl) newCommand newIcon colorPick
          newUrl).icon
        = (if item.type = ItemType.app then
            match newIcon with
            | some ic => some ic
            | none => item.icon
          else item.icon)
      ∧ (editItem item (some nm) (some tl) newCommand newIcon colorPick
          newUrl).color
        = (if item.type = ItemType.folderGroup then
            match colorPick with
            | some v => if v = "" then none else some v
            | none => item.color
          else item.color)
      ∧ (editItem item (some nm) (some tl) newCommand newIcon colorPick
          newUrl).url
        = (if item.type = ItemType.link then
            match newUrl with
            | some u => some u
            | none => item.url
          else item.url)
      ∧ editItem item none (some tl) newCommand newIcon colorPick newUrl
          = item
      ∧ editItem item (some nm) none newCommand newIcon colorPick newUrl
          = item := by
  obtain ⟨b, ch⟩ := item
  cases hty : b.type <;>
    cases newCommand <;> cases newIcon <;> cases colorPick <;>
    cases newUrl <;>
    simp_all [editItem, DockItem.name, DockItem.title, DockItem.children,
      DockItem.command, DockItem.icon, DockItem.color, DockItem.url,
      DockItem.type, DockItem.base]

/-! ## Theorems for claim C2 (addItemToFolder target check) -/

/-- Counterexample to claim C2: `sampleFile` is not a folder-group,
yet `addItemToFolder` does not reject the operation — it creates a
children array on the file item and appends the new link item to it. -/
theorem addItemToFolder_nonfolder_cex :
    sampleFile.type ≠ ItemType.folderGroup
      ∧ (addItemToFolder sampleFile (some sampleLink)).children
          = some [sampleLink]
      ∧ sampleFile.children = none := by
  refine ⟨by decide, rfl, rfl⟩

/-- Claim C2 as amended: `addItemToFolder` performs no check on the
target's variant: whenever item creation succeeds it appends the new
item to the target's children (initializing an absent children array
to empty), whatever the target's variant is; only a cancelled creation
leaves the target unchanged. -/
theorem addItemToFolder_appends_unconditionally (f it : DockItem) :
    (addItemToFolder f (some it)).children
        = some ((f.children.getD []) ++ [it])
      ∧ (addItemToFolder f (some it)).base = f.base
      ∧ addItemToFolder f none = f := by
  obtain ⟨b, ch⟩ := f
  cases ch <;>
    simp [addItemToFolder, DockItem.children, DockItem.base]

/-! ## Helpers about findIndex-by-id and the swap -/

theorem findIdxById_first (l : List DockItem) (i : Nat) (x : DockItem)
    (hx : l[i]? = some x)
    (hbefore : ∀ j y, j < i → l[j]? = some y → y.id ≠ x.id) :
    findIdxById l x.id = some i := by
  induction l generalizing i with
  | nil => simp at hx
  | cons h t ih =>
    cases i with
    | zero =>
      simp only [List.getElem?_cons_zero, Option.some.injEq] at hx
      subst hx
      simp [findIdxById]
    | succ k =>
      have hne : h.id ≠ x.id :=
        hbefore 0 h (Nat.succ_pos k) List.getElem?_cons_zero
      have hrec : findIdxById t x.id = some k := by
        refine ih k (by simpa using hx) ?_
        intro j y hj hy
        exact hbefore (j + 1) y (by omega) (by simpa using hy)
      simp [findIdxById, hne, hrec]

theorem id_ne_of_nodup (l : List DockItem)
    (hnd : (l.map DockItem.id).Nodup) (i j : Nat) (x y : DockItem)
    (hij : i ≠ j) (hx : l[i]? = some x) (hy : l[j]? = some y) :
    x.id ≠ y.id := by
  obtain ⟨hi, hxe⟩ := List.getElem?_eq_some_iff.1 hx
  obtain ⟨hj, hye⟩ := List.getElem?_eq_some_iff.1 hy
  intro hid
  have hmi : i < (l.map DockItem.id).length := by simpa using hi
  have hmj : j < (l.map DockItem.id).length := by simpa using hj
  have : (l.map DockItem.id)[i] = (l.map DockItem.id)[j] := by
    rw [List.getElem_map, List.getElem_map, hxe, hye, hid]
  exact hij ((hnd.getElem_inj_iff).1 this)

theorem listSwap_double {α : Type} (l : List α) (i j : Nat) (hij : i ≠ j)
    (hi : i < l.length) (hj : j < l.length) :
    listSwap (listSwap l i j) j i = l := by
  have hxi : l[i]? = some l[i] := List.getElem?_eq_getElem hi
  have hxj : l[j]? = some l[j] := List.getElem?_eq_getElem hj
  have h1 : listSwap l i j = (l.set i l[j]).set j l[i] := by
    simp [listSwap, hxi, hxj]
  have hlen1 : ((l.set i l[j]).set j l[i]).length = l.length := by simp
  have hgj : ((l.set i l[j]).set j l[i])[j]? = some l[i] :=
    List.getElem?_set_self (by simpa using hj)
  have hgi : ((l.set i l[j]).set j l[i])[i]? = some l[j] := by
    rw [List.getElem?_set_ne (Ne.symm hij),
      List.getElem?_set_self (by simpa using hi)]
  rw [h1]
  simp only [listSwap, hgj, hgi]
  rw [List.set_set, List.set_comm _ _ _ (Ne.symm hij), List.set_set]
  rw [set_eq_of_getElem? _ _ _ hxi, set_eq_of_getElem? _ _ _ hxj]

/-! ## Theorems for claim C4 (moveItem is its own inverse) -/

/-- Claim C4: `moveItem` is its own inverse: on any list satisfying
the data model's id-uniqueness invariant, moving the item found at
index `i` by `+1` and then by `-1` restores the original list order
exactly, whenever the `+1` move is in-bounds (`i + 1 < length`; the
`-1` move back is then in-bounds as well). -/
theorem moveItem_plus_minus_inverse (l : List DockItem) (i : Nat)
    (x : DockItem) (hx : l[i]? = some x) (hib : i + 1 < l.length)
    (hnd : (l.map DockItem.id).Nodup) :
    (moveItem (moveItem l x 1).1 x (-1)).1 = l := by
  have hi : i < l.length := by omega
  obtain ⟨b, hb⟩ : ∃ b, l[i + 1]? = some b :=
    ⟨l[i + 1], List.getElem?_eq_getElem hib⟩
  -- the first findIndex locates x at i
  have hfind1 : findIdxById l x.id = some i := by
    refine findIdxById_first l i x hx ?_
    intro j y hj hy
    exact id_ne_of_nodup l hnd j i y x (by omega) hy hx
  -- the first move swaps i and i+1
  have hmove1 : moveItem l x 1 = (listSwap l i (i + 1), MoveOutcome.moved) := by
    simp only [moveItem, hfind1]
    rw [if_neg (by omega)]
    norm_num
  set l1 := listSwap l i (i + 1) with hl1
  have hl1eq : l1 = (l.set i b).set (i + 1) x := by
    simp [hl1, listSwap, hx, hb]
  have hlen1 : l1.length = l.length := by simp [hl1eq]
  -- positions of x and b in the swapped list
  have hg1 : l1[i + 1]? = some x := by
    rw [hl1eq]
    exact List.getElem?_set_self (by simpa using hib)
  have hg0 : l1[i]? = some b := by
    rw [hl1eq, List.getElem?_set_ne (by omega),
      List.getElem?_set_self (by simpa using hi)]
  -- the second findIndex locates x at i+1
  have hfind2 : findIdxById l1 x.id = some (i + 1) := by
    refine findIdxById_first l1 (i + 1) x hg1 ?_
    intro j y hj hy
    rcases Nat.lt_or_ge j i with hji | hji
    · have : l1[j]? = l[j]? := by
        rw [hl1eq, List.getElem?_set_ne (by omega),
          List.getElem?_set_ne (by omega)]
      rw [this] at hy
      exact id_ne_of_nodup l hnd j i y x (by omega) hy hx
    · have hjeq : j = i := by omega
      subst hjeq
      rw [hg0] at hy
      cases hy
      exact id_ne_of_nodup l hnd (j + 1) j b x (by omega) hb hx
  -- the second move swaps back
  have hmove2 :
      moveItem l1 x (-1) = (listSwap l1 (i + 1) i, MoveOutcome.moved) := by
    simp only [moveItem, hfind2]
    rw [if_neg (by rw [hlen1]; push_cast; omega)]
    norm_num
  rw [hmove1]
  simp only [hmove2, hl1]
  exact listSwap_double l i (i + 1) (by omega) hi hib

/-- Witness for C4 on the concrete two-element list `samplePair`. -/
theorem moveItem_plus_minus_inverse_witness :
    (moveItem (moveItem samplePair (samplePair.get ⟨0, by decide⟩) 1).1
        (samplePair.get ⟨0, by decide⟩) (-1)).1 = samplePair :=
  moveItem_plus_minus_inverse samplePair 0 (samplePair.get ⟨0, by decide⟩)
    (by rfl) (by decide) (by decide)

/-! ## Theorems for claim C5 (out-of-bounds moves) -/

/-- Claim C5: for every item present in the list (respectively in the
folder's children) whose move would land out of bounds — new index
below 0 or at-or-beyond the length — `moveItem` and `moveItemInFolder`
show the non-fatal "Cannot move item in that direction" notice
(outcome `outOfBounds`) and leave the list, respectively the folder
and its children, completely unchanged. -/
theorem move_out_of_bounds_noop :
    (∀ (items : List DockItem) (item : DockItem) (direction : Int)
        (i : Nat), findIdxById items item.id = some i →
        ((i : Int) + direction < 0 ∨
          (items.length : Int) ≤ (i : Int) + direction) →
        moveItem items item direction = (items, MoveOutcome.outOfBounds))
      ∧ (∀ (folder : DockItem) (cs : List DockItem) (item : DockItem)
          (direction : Int) (i : Nat), folder.children = some cs →
          findIdxById cs item.id = some i →
          ((i : Int) + direction < 0 ∨
            (cs.length : Int) ≤ (i : Int) + direction) →
          moveItemInFolder folder item direction
            = (folder, MoveOutcome.outOfBounds)) := by
  constructor
  · intro items item direction i hfind hoob
    simp only [moveItem, hfind]
    rw [if_pos hoob]
  · intro folder cs item direction i hch hfind hoob
    simp only [moveItemInFolder, hch, hfind]
    rw [if_pos hoob]

/-- Witness for C5: moving the last item of `samplePair` down and the
first child of `sampleGroup` up are both reported and change nothing. -/
theorem move_out_of_bounds_noop_witness :
    moveItem samplePair
        (DockItem.mk { id := "b", type := ItemType.app, name := "B" } none) 1
      = (samplePair, MoveOutcome.outOfBounds)
      ∧ moveItemInFolder sampleGroup
          (DockItem.mk
            { id := "c1", type := ItemType.link, name := "C",
              url := some ("https://c.test") } none) (-1)
        = (sampleGroup, MoveOutcome.outOfBounds) := by
  constructor
  · exact move_out_of_bounds_noop.1 samplePair _ 1 1 (by rfl) (by decide)
  · exact move_out_of_bounds_noop.2 sampleGroup _ _ (-1) 0 (by rfl)
      (by rfl) (by decide)

/-! ## Theorems for claim C6 (projection shape) -/

/-- Claim C6: for every item list and every maximum-entries count `N`,
the projection renders exactly the first `min N length` items in list
order followed by exactly one trailing add-new-item affordance (so
`min N length + 1` visual entries); in particular `maxItems = 2` on
any 5-item list yields exactly 2 item-entries plus the trailing
add-affordance, 3 visual entries in total. -/
theorem createDockItems_projection (items : List DockItem) (N : Nat)
    (showIcons showTitles : Bool) :
    createDockItems items N showIcons showTitles
        = (items.take N).map (renderItem showIcons showTitles)
            ++ [addButtonEntry]
      ∧ (createDockItems items N showIcons showTitles).length
          = min N items.length + 1
      ∧ ∀ l : List DockItem, l.length = 5 →
          (createDockItems l 2 showIcons showTitles).length = 3 := by
  refine ⟨?_, ?_, ?_⟩
  · simp [createDockItems, foldl_push_eq_append]
  · simp [createDockItems, foldl_push_eq_append]
  · intro l hl
    simp [createDockItems, foldl_push_eq_append, hl]

/-- Witness for C6 on the concrete five-element list `sampleFive`. -/
theorem createDockItems_projection_witness :
    (createDockItems sampleFive 2 true true).length = 3 :=
  (createDockItems_projection sampleFive 2 true true).2.2 sampleFive
    (by rfl)

/-! ## Helpers about id counting -/

theorem uniqueAt_append (items : List DockItem) (x : DockItem)
    (h : freshAt items x.id) : uniqueAt (items ++ [x]) x.id := by
  simp only [uniqueAt, List.map_append, List.count_append]
  have h0 : (items.map DockItem.id).count x.id = 0 := by
    rw [List.count_eq_zero]
    rw [List.mem_map]
    rintro ⟨y, hy, hid⟩
    exact h y hy hid
  simp [h0]

theorem uniqueAt_append_of_mem (items rest : List DockItem) (y : DockItem)
    (hfresh : freshAt items y.id) (hnd : (rest.map DockItem.id).Nodup)
    (hy : y ∈ rest) : uniqueAt (items ++ rest) y.id := by
  simp only [uniqueAt, List.map_append, List.count_append]
  have h0 : (items.map DockItem.id).count y.id = 0 := by
    rw [List.count_eq_zero, List.mem_map]
    rintro ⟨z, hz, hid⟩
    exact hfresh z hz hid
  rw [h0, List.count_eq_one_of_mem hnd (List.mem_map.2 ⟨y, hy, rfl⟩)]

theorem importChromeBookmarks_split (ids : Nat → String)
    (items : List DockItem) (roots : List BookmarkRoot) :
    (importChromeBookmarks ids items roots).1
        = items ++ parseChromeBookmarks ids roots
      ∧ (importChromeBookmarks ids items roots).2
          = (parseChromeBookmarks ids roots).length := by
  by_cases h : (parseChromeBookmarks ids roots).length > 0
  · simp [importChromeBookmarks, h]
  · have h0 : parseChromeBookmarks ids roots = [] :=
      List.length_eq_zero.1 (by omega)
    simp [importChromeBookmarks, h0]

/-! ## Theorems for claim C3 (id uniqueness at insertion scope) -/

/-- Counterexample to claim C3: on the concrete prior list
`sampleClash`, whose single item already carries the id `"app-5"`,
adding an app item at clock tick 5 generates the same id again, so the
freshly generated id is not unique at the insertion scope immediately
after insertion. -/
theorem addAppItem_id_collision_cex :
    (addAppItem sampleClash 5 (some ("New")) none none none).map
        DockItem.id = ["app-5", "app-5"]
      ∧ ¬ uniqueAt (addAppItem sampleClash 5 (some ("New")) none none none)
          ("app-5")
      ∧ sampleClash.map DockItem.id = ["app-5"] := by
  refine ⟨rfl, by decide, rfl⟩

/-- Claim C3 as amended: for every valid add operation — `addItem` of
any variant, the folder-group add, `addItemToFolder`, and the items
created by the bookmark import — the freshly generated id of the new
item is unique at its insertion scope immediately after insertion
PROVIDED the generated id does not already occur at that scope (and,
for the import, that the generated ids are pairwise distinct); the
timestamp-based generation scheme does not by itself rule out such
collisions. -/
theorem add_ops_id_unique_of_fresh (items : List DockItem) (ts : Nat) :
    (∀ nm title command icon, nm ≠ "" →
        freshAt items (genId ("app") ts) →
        uniqueAt (addAppItem items ts (some nm) title command icon)
          (genId ("app") ts))
      ∧ (∀ bn extname p title, freshAt items (genId ("file") ts) →
          uniqueAt (addFileItem bn extname items ts (some p) title)
            (genId ("file") ts))
      ∧ (∀ bn p title, freshAt items (genId ("folder") ts) →
          uniqueAt (addFolderItem bn items ts (some p) title)
            (genId ("folder") ts))
      ∧ (∀ u nm title, u ≠ "" → nm ≠ "" →
          freshAt items (genId ("link") ts) →
          uniqueAt (addLinkItem items ts (some u) (some nm) title)
            (genId ("link") ts))
      ∧ (∀ nm title colorPick, nm ≠ "" →
          freshAt items (genId ("folder-group") ts) →
          uniqueAt (showAddFolderDialog items ts (some nm) title colorPick)
            (genId ("folder-group") ts))
      ∧ (∀ f it, freshAt (f.children.getD []) (DockItem.id it) →
          uniqueAt (((addItemToFolder f (some it)).children).getD [])
            (DockItem.id it))
      ∧ (∀ ids roots,
          (∀ y ∈ parseChromeBookmarks ids roots, freshAt items y.id) →
          ((parseChromeBookmarks ids roots).map DockItem.id).Nodup →
          ∀ y ∈ parseChromeBookmarks ids roots,
            uniqueAt (importChromeBookmarks ids items roots).1 y.id) := by
  refine ⟨?_, ?_, ?_, ?_, ?_, ?_, ?_⟩
  · intro nm title command icon hnm hfresh
    simp only [addAppItem, if_neg hnm]
    exact uniqueAt_append items _ hfresh
  · intro bn extname p title hfresh
    simp only [addFileItem]
    exact uniqueAt_append items _ hfresh
  · intro bn p title hfresh
    simp only [addFolderItem]
    exact uniqueAt_append items _ hfresh
  · intro u nm title hu hnm hfresh
    simp only [addLinkItem, if_neg hu, if_neg hnm]
    exact uniqueAt_append items _ hfresh
  · intro nm title colorPick hnm hfresh
    simp only [showAddFolderDialog, if_neg hnm]
    exact uniqueAt_append items _ hfresh
  · intro f it hfresh
    obtain ⟨b, ch⟩ := f
    cases ch with
    | none =>
      simp only [addItemToFolder, DockItem.children, Option.getD] at hfresh ⊢
      exact uniqueAt_append [] it hfresh
    | some cs =>
      simp only [addItemToFolder, DockItem.children, Option.getD] at hfresh ⊢
      exact uniqueAt_append cs it hfresh
  · intro ids roots hfresh hnd y hy
    rw [(importChromeBookmarks_split ids items roots).1]
    exact uniqueAt_append_of_mem items _ y (hfresh y hy) hnd hy

/-- Witness for C3 (amended) covering a fresh top-level app add, a
fresh folder-scope add, and a fresh import over `sampleUrlRoots`. -/
theorem add_ops_id_unique_witness :
    uniqueAt (addAppItem samplePair 7 (some ("New")) none none none)
        (genId ("app") 7)
      ∧ uniqueAt (((addItemToFolder sampleGroup (some sampleLink)).children).getD [])
          (DockItem.id sampleLink)
      ∧ uniqueAt (importChromeBookmarks sampleIds samplePair sampleUrlRoots).1
          ("chrome-0") := by
  refine ⟨?_, ?_, ?_⟩
  · exact (add_ops_id_unique_of_fresh samplePair 7).1 ("New") none none none
      (by decide) (by decide)
  · exact (add_ops_id_unique_of_fresh samplePair 7).2.2.2.2.2.1 sampleGroup
      sampleLink (by decide)
  · exact (add_ops_id_unique_of_fresh samplePair 0).2.2.2.2.2.2 sampleIds
      sampleUrlRoots (fun y hy => by
        fin_cases hy <;> decide)
      (by decide)
      (DockItem.mk
        { id := "chrome-0", type := ItemType.link, name := "A",
          url := some ("https://a.test"), icon := some ("$(globe)") } none)
      (List.mem_cons_self _ _)

/-! ## Helpers about the bookmark traversal -/

mutual

theorem parseBookmarkNode_proj (ids : Nat → String) :
    ∀ (n : BookmarkNode) (acc : List DockItem),
      (parseBookmarkNode ids n acc).map linkProj
        = acc.map linkProj
            ++ (urlLeavesNode n).map (fun p => (p.1, some p.2, ItemType.link))
  | BookmarkNode.url nm u, acc => by
    simp [parseBookmarkNode, urlLeavesNode, linkProj, DockItem.name,
      DockItem.url, DockItem.type, DockItem.base]
  | BookmarkNode.folder nm cs, acc => by
    rw [show parseBookmarkNode ids (BookmarkNode.folder nm cs) acc
        = parseBookmarkList ids cs acc from rfl]
    rw [parseBookmarkList_proj ids cs acc]
    rw [show urlLeavesNode (BookmarkNode.folder nm cs)
        = urlLeavesList cs from rfl]
  | BookmarkNode.other, acc => by
    simp [parseBookmarkNode, urlLeavesNode]

theorem parseBookmarkList_proj (ids : Nat → String) :
    ∀ (ls : List BookmarkNode) (acc : List DockItem),
      (parseBookmarkList ids ls acc).map linkProj
        = acc.map linkProj
            ++ (urlLeavesList ls).map (fun p => (p.1, some p.2, ItemType.link))
  | [], acc => by
    simp [parseBookmarkList, urlLeavesList]
  | c :: cs, acc => by
    rw [show parseBookmarkList ids (c :: cs) acc
        = parseBookmarkList ids cs (parseBookmarkNode ids c acc) from rfl]
    rw [parseBookmarkList_proj ids cs (parseBookmarkNode ids c acc)]
    rw [parseBookmarkNode_proj ids c acc]
    rw [show urlLeavesList (c :: cs)
        = urlLeavesNode c ++ urlLeavesList cs from rfl]
    simp [List.append_assoc]

end

theorem parseRoot_proj (ids : Nat → String) (r : BookmarkRoot)
    (acc : List DockItem) :
    (parseRoot ids r acc).map linkProj
      = acc.map linkProj
          ++ (urlLeavesRoot r).map (fun p => (p.1, some p.2, ItemType.link)) := by
  obtain ⟨ch⟩ := r
  cases ch with
  | none => simp [parseRoot, urlLeavesRoot]
  | some cs => simp [parseRoot, urlLeavesRoot, parseBookmarkList_proj]

theorem fold_parse_proj (ids : Nat → String) (roots : List BookmarkRoot) :
    ∀ acc : List DockItem,
      ((roots.foldl (fun a r => parseRoot ids r a) acc).map linkProj)
        = acc.map linkProj
            ++ ((roots.map urlLeavesRoot).flatten).map
                (fun p => (p.1, some p.2, ItemType.link)) := by
  induction roots with
  | nil => intro acc; simp
  | cons r rs ih =>
    intro acc
    simp only [List.foldl_cons, List.map_cons, List.flatten_cons]
    rw [ih, parseRoot_proj]
    simp [List.append_assoc]

theorem urlLeavesData_eq_flatten (roots : List BookmarkRoot) :
    urlLeavesData roots = (roots.map urlLeavesRoot).flatten := by
  have := foldl_append_eq_join urlLeavesRoot roots []
  simpa [urlLeavesData] using this

theorem parseChromeBookmarks_proj (ids : Nat → String)
    (roots : List BookmarkRoot) :
    (parseChromeBookmarks ids roots).map linkProj
      = (urlLeavesData roots).map (fun p => (p.1, some p.2, ItemType.link)) := by
  rw [urlLeavesData_eq_flatten]
  simpa [parseChromeBookmarks] using fold_parse_proj ids roots []

/-! ## Theorems for claim C8 (import content) -/

/-- Claim C8: for every bookmark tree containing zero url-typed nodes
at any nesting depth, `importBookmarks` reports an imported count of 0
and leaves the item list completely unchanged; and for every tree the
parsed items are exactly the url-typed leaf nodes, flattened to
top-level link items regardless of folder nesting depth (their
name/url/type contents, in order, are the pre-order url leaves). -/
theorem importBookmarks_exactly_url_leaves (ids : Nat → String)
    (items : List DockItem) (roots : List BookmarkRoot) :
    (urlLeavesData roots = [] →
        importChromeBookmarks ids items roots = (items, 0))
      ∧ (parseChromeBookmarks ids roots).map linkProj
          = (urlLeavesData roots).map (fun p => (p.1, some p.2, ItemType.link)) := by
  constructor
  · intro h0
    have hp : parseChromeBookmarks ids roots = [] := by
      have h := parseChromeBookmarks_proj ids roots
      rw [h0] at h
      simpa [List.map_eq_nil_iff] using h
    simp [importChromeBookmarks, hp]
  · exact parseChromeBookmarks_proj ids roots

/-- Witness for C8 on the concrete url-free tree `sampleNoUrlRoots`. -/
theorem importBookmarks_zero_urls_witness :
    importChromeBookmarks sampleIds sampleFive sampleNoUrlRoots
      = (sampleFive, 0) :=
  (importBookmarks_exactly_url_leaves sampleIds sampleFive
    sampleNoUrlRoots).1 (by rfl)

/-! ## Theorems for claim C10 (import only appends, in pre-order) -/

/-- Claim C10: for every bookmark tree and every prior item list,
`importBookmarks` only appends: the new list is the old list followed
by the parsed items, so all pre-existing top-level items are unchanged
and keep their relative order and positions; the reported count is the
number of appended items; and the appended suffix consists of the
imported link items in the depth-first pre-order traversal order of
the source tree. -/
theorem importBookmarks_append_only (ids : Nat → String)
    (items : List DockItem) (roots : List BookmarkRoot) :
    (importChromeBookmarks ids items roots).1
        = items ++ parseChromeBookmarks ids roots
      ∧ (importChromeBookmarks ids items roots).1.take items.length = items
      ∧ (importChromeBookmarks ids items roots).2
          = (parseChromeBookmarks ids roots).length
      ∧ ((importChromeBookmarks ids items roots).1.drop items.length).map
            linkProj
          = (urlLeavesData roots).map (fun p => (p.1, some p.2, ItemType.link)) := by
  obtain ⟨h1, h2⟩ := importChromeBookmarks_split ids items roots
  refine ⟨h1, ?_, h2, ?_⟩
  · rw [h1, List.take_left]
  · rw [h1, List.drop_left]
    exact parseChromeBookmarks_proj ids roots

end Dock
